import Mathlib

set_option maxRecDepth 8000

/-!
# Verification of the Noko reporting automation core logic

Shallow embedding of the entry classifier (`generate-reports.js`,
`categorizeEntriesForGeekbot` / `generateRawDataForLLM` / `filterLsmEntries` /
`formatTime`) and of the capacity aggregator (`scripts/team-analysis.js`,
`analyzeTeamData` / `generateSummaryReport` / `loadTeamData` / `main`).

JS numbers that only ever hold integers are embedded as `Nat`/`Int`;
fractional hour arithmetic is embedded as `ℚ`.  JS strings are embedded as
`String`, with the JS string primitives (`includes`, `startsWith`, `trim`,
`charAt`, `split`, code-unit comparison) modelled on `List Char` so every
definition evaluates in the kernel.

An important caveat applies to everything embedded from
`scripts/team-analysis.js`: that module contains two duplicate lexical
`const` declarations (`sowStart`/`now` twice in the scope of
`analyzeTeamData`, lines 173-174 and 226-228, and `monthlyNeeded` twice in
the scope of `generateSummaryReport`, lines 292 and 332).  Duplicate `const`
bindings in one scope are ECMAScript *early errors*: the module throws
`SyntaxError: Identifier 'sowStart' has already been declared` at parse
time, so no function in that file — not even `main` or its help text — ever
executes.  The definitions below embed the evidently *intended* semantics of
the written bodies (each duplicated declaration re-binds the very same
expression, so a single computation is the only reading under which the
script computes anything); they exist to state precisely what the spec
claims of this script, while the claims themselves are judged against the
shipped artifact, which crashes at load.
-/

namespace Noko

/-- JS `s.includes(pat)` on char lists: `pat` occurs contiguously in `s`.
(`"".includes("")` is `true` in JS, matched here.) -/
def occursIn (pat : List Char) : List Char → Bool
  | [] => pat.isEmpty
  | c :: rest => pat.isPrefixOf (c :: rest) || occursIn pat rest

/-- JS `s.includes(pat)` for strings. -/
def containsStr (s pat : String) : Bool :=
  occursIn pat.toList s.toList

/-- JS `s.toLowerCase()` (ASCII case folding suffices for this repository's
tag names, project names and keywords). -/
def lowerStr (s : String) : String :=
  String.mk (s.toList.map Char.toLower)

/-- JS whitespace test used by `trim` / `\s`. -/
def isWsChar (c : Char) : Bool := c.isWhitespace

/-- JS `s.trim()` on char lists. -/
def trimChars (cs : List Char) : List Char :=
  ((cs.dropWhile isWsChar).reverse.dropWhile isWsChar).reverse

/-- JS `s.trim()`. -/
def trimStr (s : String) : String :=
  String.mk (trimChars s.toList)

/-- JS code-unit lexicographic `≤` on char lists (the order used by the
default `Array.prototype.sort` comparator on ASCII strings). -/
def chLe : List Char → List Char → Bool
  | [], _ => true
  | _ :: _, [] => false
  | a :: as, b :: bs => if a = b then chLe as bs else decide (a < b)

/-- String comparison used to model JS default sort and ISO-date comparison. -/
def strLe (a b : String) : Bool := chLe a.toList b.toList

/-! ## Data model (§3 of the spec, shape of the Noko JSON records) -/

/-- A tag attached to a time entry (`{name}`). -/
structure Tag where
  name : String
deriving DecidableEq, Repr

/-- The entry's author (`{id, first_name, last_name, email}`). -/
structure NokoUser where
  id : Nat
  first_name : String
  last_name : String
  email : String
deriving DecidableEq, Repr

/-- The project a time entry was logged against (`{id, name}`).  The scripts
compare `project.id.toString()` against decimal string constants; since
`toString` is injective on numeric ids we keep the id as a `Nat`. -/
structure NokoProject where
  id : Nat
  name : String
deriving DecidableEq, Repr

/-- One logged time record.  `project` is optional because the scripts access
it with `entry.project?.…` defensive navigation; `tags` defaults to `[]`
(`entry.tags || []`). -/
structure TimeEntry where
  id : Nat
  date : String
  minutes : Nat
  description : String
  user : NokoUser
  project : Option NokoProject
  tags : List Tag
deriving DecidableEq, Repr

/-- `entry.project?.name || ''` -/
def projectNameOf (e : TimeEntry) : String :=
  match e.project with
  | some p => p.name
  | none => ""

/-- `entry.project?.id?.toString()` (kept as `Option Nat`; comparisons with
the decimal bucket-id constants are by numeric equality). -/
def projectIdOf (e : TimeEntry) : Option Nat :=
  e.project.map (fun p => p.id)

/-! ## generate-reports.js : configuration -/

/-- The `specialBuckets` constant of `getConfig()`. -/
def lsmBucketId : Nat := 560795
/-- Internal Noko bucket id. -/
def internalBucketId : Nat := 17045
/-- Drainpipe project id. -/
def drainpipeBucketId : Nat := 687916
/-- Lullabotdotcom project id. -/
def lullabotdotcomBucketId : Nat := 550434

/-- The run-time configuration of `generate-reports.js` that the classifier
reads: the discovered project directory names (`CONFIG.projects`) and the
parsed `PROJECT_MAPPINGS` table (`CONFIG.projectMappings.projectToCategory`,
as an association list in insertion order). -/
structure GeekbotConfig where
  projects : List String
  projectToCategory : List (String × String)
deriving Repr

/-- `CONFIG.projectMappings.hasCustomMappings`
(`Object.keys(projectToCategory).length > 0`). -/
def GeekbotConfig.hasCustomMappings (cfg : GeekbotConfig) : Bool :=
  !cfg.projectToCategory.isEmpty

/-- JS object lookup `projectToCategory[p]` (first binding wins; a JS object
cannot hold a key twice, the parser's later assignment overwrites, and for
faithfulness we read the last binding for a repeated key, as the parser's
overwrite semantics dictates). -/
def lookupCategory (m : List (String × String)) (p : String) : Option String :=
  (m.reverse.find? (fun kv => kv.1 = p)).map (fun kv => kv.2)

/-! ## generate-reports.js : entry classification -/

/-- The tag test of `categorizeEntriesForGeekbot`:
`tags.some(tag => tag.name.toLowerCase().includes('internal') ||
tag.name.toLowerCase().includes('sales'))`. -/
def hasInternalTag (e : TimeEntry) : Bool :=
  e.tags.any (fun t =>
    containsStr (lowerStr t.name) "internal" ||
    containsStr (lowerStr t.name) "sales")

/-- `projectName.replace(/^\[LSM\]\s*/, '').trim()`: drop a *leading*
`"[LSM]"` together with the whitespace run after it, then trim. -/
def cleanLsmName (name : String) : String :=
  let cs := name.toList
  if ("[LSM]".toList).isPrefixOf cs then
    trimChars ((cs.drop 5).dropWhile isWsChar)
    |> String.mk
  else
    trimStr name

/-- The matcher passed to `CONFIG.projects.find(...)`: case-insensitive
containment in either direction, plus the three hard-coded abbreviation
patterns. -/
def projectDirMatches (cleanName : String) (proj : String) : Bool :=
  let projLower := lowerStr proj
  let nameLower := lowerStr cleanName
  containsStr nameLower projLower || containsStr projLower nameLower ||
  (projLower = "dh" && containsStr nameLower "dartmouth") ||
  (projLower = "govhub" && containsStr nameLower "georgia") ||
  (projLower = "mjff" && containsStr nameLower "mjff")

/-- `cleanProjectName.split(' ')[0]` (JS split on a single space; on the
empty string this is `""`). -/
def firstWord (s : String) : String :=
  String.mk (s.toList.takeWhile (fun c => c ≠ ' '))

/-- The client-project grouping key computed in Category 1 of
`categorizeEntriesForGeekbot`.  JS truthiness: an empty-string
`matchedProject` is falsy, so it falls through to the first-word fallback,
and an empty mapped category falls back to the matched project. -/
def categoryKeyFor (cfg : GeekbotConfig) (projectName : String) : String :=
  let cleanName := cleanLsmName projectName
  match cfg.projects.find? (projectDirMatches cleanName) with
  | some matched =>
    if matched ≠ "" && cfg.hasCustomMappings then
      match lookupCategory cfg.projectToCategory matched with
      | some cat => if cat = "" then matched else cat
      | none => matched
    else if matched ≠ "" then matched
    else firstWord cleanName
  | none => firstWord cleanName

/-- The bucket a single entry is assigned to by the body of the
`userEntries.forEach` in `categorizeEntriesForGeekbot`, with the branches in
the source's order: Client Projects (`projectName.includes('[LSM]')`) first,
then Internal (`hasInternalTag || projectId === specialBuckets.internal`),
then LSM General (lsm / drainpipe / lullabotdotcom bucket ids), then Other. -/
inductive Bucket where
  | clientProject (key : String)
  | lsmGeneral
  | internal
  | other
deriving DecidableEq, Repr

/-- Classification of one entry (the `forEach` body as a function). -/
def classifyEntry (cfg : GeekbotConfig) (e : TimeEntry) : Bucket :=
  let projectName := projectNameOf e
  if containsStr projectName "[LSM]" then
    .clientProject (categoryKeyFor cfg projectName)
  else if hasInternalTag e || projectIdOf e = some internalBucketId then
    .internal
  else if projectIdOf e = some lsmBucketId ||
          projectIdOf e = some drainpipeBucketId ||
          projectIdOf e = some lullabotdotcomBucketId then
    .lsmGeneral
  else
    .other

/-- The `categories` accumulator object of `categorizeEntriesForGeekbot`.
`clientProjects` is a JS object keyed by category name; its non-numeric keys
enumerate in insertion order, so it is embedded as an association list in
insertion order. -/
structure Categories where
  clientProjects : List (String × List TimeEntry)
  lsmGeneral : List TimeEntry
  internal : List TimeEntry
  other : List TimeEntry
deriving DecidableEq, Repr

/-- The empty accumulator (`{clientProjects: {}, lsm: [], internal: [],
other: []}`). -/
def emptyCategories : Categories := ⟨[], [], [], []⟩

/-- `categories.clientProjects[key].push(entry)`, creating the key at the end
of the object when absent. -/
def addToGroup (groups : List (String × List TimeEntry)) (key : String)
    (e : TimeEntry) : List (String × List TimeEntry) :=
  match groups with
  | [] => [(key, [e])]
  | (k, es) :: rest =>
    if k = key then (k, es ++ [e]) :: rest
    else (k, es) :: addToGroup rest key e

/-- One iteration of the `userEntries.forEach` loop. -/
def catStep (cfg : GeekbotConfig) (c : Categories) (e : TimeEntry) :
    Categories :=
  match classifyEntry cfg e with
  | .clientProject key => { c with clientProjects := addToGroup c.clientProjects key e }
  | .lsmGeneral => { c with lsmGeneral := c.lsmGeneral ++ [e] }
  | .internal => { c with internal := c.internal ++ [e] }
  | .other => { c with other := c.other ++ [e] }

/-- `categorizeEntriesForGeekbot(allEntries, userId)`: filter to the user's
entries, then bucket each one in order. -/
def categorizeEntriesForGeekbot (cfg : GeekbotConfig) (allEntries : List TimeEntry)
    (userId : Nat) : Categories :=
  let userEntries := allEntries.filter (fun e => e.user.id = userId)
  userEntries.foldl (catStep cfg) emptyCategories

/-! ## generate-reports.js : rendering (geekbot path of
`generateRawDataForLLM`) -/

/-- `formatTime(minutes)` of both scripts. -/
def formatTime (minutes : Nat) : String :=
  let hours := minutes / 60
  let mins := minutes % 60
  if hours = 0 then toString mins ++ "m"
  else if mins = 0 then toString hours ++ "h"
  else toString hours ++ "h " ++ toString mins ++ "m"

/-- JS `s.charAt(0)` (empty string when `s` is empty). -/
def charAt0 (s : String) : String :=
  String.mk (s.toList.take 1)

/-- One rendered entry line:
`` `${timeFormatted} - ${user}: ${entry.description} (${entry.date})\n` ``
with `` user = `${first_name} ${last_name.charAt(0)}.` ``. -/
def entryLine (e : TimeEntry) : String :=
  formatTime e.minutes ++ " - " ++ e.user.first_name ++ " " ++
    charAt0 e.user.last_name ++ ".: " ++ e.description ++
    " (" ++ e.date ++ ")\n"

/-- Which of the four output blocks a rendered section came from. -/
inductive SectionKind where
  | client
  | lsmGeneral
  | internal
  | otherGroup
deriving DecidableEq, Repr

/-- One `\n=== header ===\n` block of the raw geekbot output, with the
entries it prints (in push order). -/
structure RSection where
  kind : SectionKind
  header : String
  entries : List TimeEntry
deriving DecidableEq, Repr

/-- The text of one section (`rawData += …` of the source). -/
def sectionText (s : RSection) : String :=
  "\n=== " ++ s.header ++ " ===\n" ++ String.join (s.entries.map entryLine)

/-- Insertion sort of strings by JS code-unit order, modelling
`Object.keys(…).sort()` (keys of a JS object are distinct, so stability is
irrelevant). -/
def insertStr (a : String) : List String → List String
  | [] => [a]
  | b :: rest => if strLe a b then a :: b :: rest else b :: insertStr a rest

/-- Sorting a key list as JS `Array.prototype.sort` does on ASCII keys. -/
def sortStrs : List String → List String
  | [] => []
  | a :: rest => insertStr a (sortStrs rest)

/-- `groups[key]` with the `[]` default the render loop effectively uses. -/
def groupGet (groups : List (String × List TimeEntry)) (key : String) :
    List TimeEntry :=
  match groups.find? (fun kv => kv.1 = key) with
  | some kv => kv.2
  | none => []

/-- Section 1 of the geekbot output: client-project groups, keys sorted,
skipping empty groups (`if (entries.length > 0)`). -/
def clientSections (c : Categories) : List RSection :=
  (sortStrs (c.clientProjects.map Prod.fst)).filterMap (fun key =>
    let entries := groupGet c.clientProjects key
    if entries.length > 0 then some ⟨.client, key, entries⟩ else none)

/-- Section 2: the `=== LSM ===` block, emitted only when non-empty. -/
def lsmSection (c : Categories) : List RSection :=
  if c.lsmGeneral.length > 0 then [⟨.lsmGeneral, "LSM", c.lsmGeneral⟩] else []

/-- Section 3: the `=== Internal ===` block, emitted only when
`!excludeInternal && categories.internal.length > 0`. -/
def internalSection (c : Categories) (excludeInternal : Bool) : List RSection :=
  if !excludeInternal && c.internal.length > 0 then
    [⟨.internal, "Internal", c.internal⟩]
  else []

/-- The grouping key of the Other render loop:
`entry.project?.name || 'Uncategorized'` (an empty name is falsy in JS). -/
def otherKey (e : TimeEntry) : String :=
  match e.project with
  | some p => if p.name = "" then "Uncategorized" else p.name
  | none => "Uncategorized"

/-- `otherGrouped`: the Other bucket re-grouped by raw project name, in
insertion order. -/
def otherGrouped (c : Categories) : List (String × List TimeEntry) :=
  c.other.foldl (fun g e => addToGroup g (otherKey e) e) []

/-- Section 4: the Other groups, keys sorted by raw project name. -/
def otherSections (c : Categories) : List RSection :=
  if c.other.length > 0 then
    (sortStrs ((otherGrouped c).map Prod.fst)).map (fun key =>
      ⟨.otherGroup, key, groupGet (otherGrouped c) key⟩)
  else []

/-- The full ordered section list of the geekbot branch of
`generateRawDataForLLM`: Client Projects, LSM, Internal (conditional),
Other. -/
def geekbotSections (c : Categories) (excludeInternal : Bool) : List RSection :=
  clientSections c ++ lsmSection c ++ internalSection c excludeInternal ++
    otherSections c

/-- The `rawData` string accumulated by the geekbot branch. -/
def geekbotRawData (c : Categories) (excludeInternal : Bool) : String :=
  String.join ((geekbotSections c excludeInternal).map sectionText)

/-- Date-range filter of `generateRawDataForLLM`: keep entries with
`cutoffDateStr <= entry.date <= todayDateStr` (ISO-date strings compare by
code units, which for well-formed `YYYY-MM-DD` strings is chronological). -/
def dateFilter (entries : List TimeEntry) (cutoffDateStr todayDateStr : String) :
    List TimeEntry :=
  entries.filter (fun e =>
    strLe cutoffDateStr e.date && strLe e.date todayDateStr)

/-- The geekbot pipeline from the concatenated corpus to the section list:
date filtering, then categorization (which applies the user filter), then
rendering.  This *is* `generateRawDataForLLM(days, 'geekbot', quiet,
excludeInternal)` with the file-system concatenation `allEntries` and the
two date strings taken as parameters. -/
def rawGeekbot (cfg : GeekbotConfig) (allEntries : List TimeEntry)
    (userId : Nat) (cutoffDateStr todayDateStr : String)
    (excludeInternal : Bool) : List RSection :=
  geekbotSections
    (categorizeEntriesForGeekbot cfg (dateFilter allEntries cutoffDateStr todayDateStr) userId)
    excludeInternal

/-! ## generate-reports.js : the weekly path (`filterLsmEntries`) -/

/-- `entry.project && entry.project.name && entry.project.name.includes('[LSM]')`
(an absent project, and — by JS falsiness — an empty name, both fail the
test; `containsStr "" "[LSM]"` is `false` anyway). -/
def hasLsmName (e : TimeEntry) : Bool :=
  match e.project with
  | some p => containsStr p.name "[LSM]"
  | none => false

/-- The de-duplication step of `filterLsmEntries`:
`filter((entry, index, self) => index === self.findIndex(e => e.id ===
entry.id))` keeps the *first* occurrence of each `id` in order, which is
what this recursion computes. -/
def dedupById : List TimeEntry → List TimeEntry
  | [] => []
  | e :: rest => e :: dedupById (rest.filter (fun x => x.id ≠ e.id))
termination_by l => l.length
decreasing_by
  simpa using Nat.lt_succ_of_le (List.length_filter_le _ rest)

/-- `filterLsmEntries(entries)`: the `[LSM]`-named entries, then the entries
with neither an `[LSM]` name nor an internal/sales exclusion tag
(`hasExclusionTags` is textually the same test as `hasInternalTag`),
concatenated and de-duplicated by `id`. -/
def filterLsmEntries (entries : List TimeEntry) : List TimeEntry :=
  let lsmByProjectName := entries.filter (fun e => hasLsmName e)
  let lsmByExclusion := entries.filter (fun e => !hasLsmName e && !hasInternalTag e)
  dedupById (lsmByProjectName ++ lsmByExclusion)

/-! ## scripts/team-analysis.js : configuration (`CONFIG`)

All constants are hard-coded in the script.  `sowStartDate = '2025-04-01'`
parses to year 2025, (0-based) month 3.

Reminder (see the module header): this script never parses — its duplicate
`const` declarations are a parse-time SyntaxError — so every definition in
the sections below models the intended semantics of the written text, which
the shipped program never exhibits. -/

/-- `CONFIG.sowMonthlyHours` -/
def sowMonthlyHours : ℚ := 200
/-- `CONFIG.sowTotalHours` -/
def sowTotalHours : ℚ := 3000
/-- `CONFIG.actualUsageFromCSV.totalHours` -/
def csvTotalHours : ℚ := 947.75
/-- `CONFIG.actualUsageFromCSV.monthsComplete` -/
def csvMonthsComplete : ℚ := 4
/-- `CONFIG.actualUsageFromCSV.monthsRemaining` -/
def csvMonthsRemaining : ℚ := 11
/-- `CONFIG.actualUsageFromCSV.hoursRemaining` -/
def csvHoursRemaining : ℚ := 2052.25
/-- `parseDate(CONFIG.sowStartDate).getFullYear()` -/
def sowStartYear : ℤ := 2025
/-- `parseDate(CONFIG.sowStartDate).getMonth()` (0-based, April = 3). -/
def sowStartMonth0 : ℤ := 3

/-- Number-formatting model of JS `x.toFixed(1)` followed by `parseFloat`:
round to one decimal, half away from zero (our uses are all non-negative, so
`⌊10x + 1/2⌋ / 10`). -/
def roundTo1 (q : ℚ) : ℚ :=
  ((⌊q * 10 + 1/2⌋ : ℤ) : ℚ) / 10

/-- String model of JS `x.toFixed(1)` for the non-negative values this
program formats. -/
def toFixed1 (q : ℚ) : String :=
  let t : ℤ := ⌊q * 10 + 1/2⌋
  toString (t / 10) ++ "." ++ toString (t % 10)

/-! ## scripts/team-analysis.js : work-type categorization and aggregation -/

/-- `professionalTags` of `categorizeWorkType`. -/
def professionalTags : List String :=
  ["professional", "consulting", "strategy", "design"]

/-- `professionalKeywords` of `categorizeWorkType`. -/
def professionalKeywords : List String :=
  ["behat", "playwright", "migration", "upgrade", "drupal 11",
   "govhub 2.0", "initiative", "acn", "cloud next", "storybook",
   "orchard", "auth0", "siteimprove", "figma"]

/-- The two work types. -/
inductive WorkType where
  | professionalServices
  | supportMaintenance
deriving DecidableEq, Repr

/-- `categorizeWorkType(entry)`: Professional Services iff a tag name
contains one of the professional tag labels (case-insensitive) or the
description contains one of the professional keywords (case-insensitive);
otherwise Support & Maintenance. -/
def categorizeWorkType (e : TimeEntry) : WorkType :=
  let hasProTag := e.tags.any (fun t =>
    professionalTags.any (fun pt => containsStr (lowerStr t.name) pt))
  let hasProKeywords := professionalKeywords.any (fun kw =>
    containsStr (lowerStr e.description) kw)
  if hasProTag || hasProKeywords then .professionalServices
  else .supportMaintenance

/-- `analysis.summary` (the fields the claims are about). -/
structure AnalysisSummary where
  totalHours : ℚ
  totalEntries : ℕ
  monthsAnalyzed : ℤ
deriving DecidableEq, Repr

/-- One `{hours, entries}` leaf of `analysis.byWorkType`. -/
structure WorkTypeAgg where
  hours : ℚ
  entries : ℕ
deriving DecidableEq, Repr

/-- `analysis.capacity` (the fields the claims are about; the script stores
the `toFixed(1)` strings, and `generateSummaryReport` reads them back with
`parseFloat`, which recovers exactly the `roundTo1` rational kept alongside
each string here). -/
structure Capacity where
  contractTotalHours : ℚ
  contractMonthlyHours : ℚ
  logDataUtilization : String
  logDataUtilizationQ : ℚ
  actualTotalUsed : ℚ
  actualUtilization : String
  actualUtilizationQ : ℚ
  actualMonthlyAverage : String
  actualMonthlyAverageQ : ℚ
  hoursRemaining : ℚ
  monthsRemaining : ℚ
  avgHoursNeededPerMonth : String
  avgHoursNeededPerMonthQ : ℚ
deriving DecidableEq, Repr

/-- The analysis record built by `analyzeTeamData` (restricted to the fields
the claims are about; `byTeamMember` and `byMonth` are further per-key sums
of the same shape and are not needed by any claim). -/
structure Analysis where
  summary : AnalysisSummary
  maintenanceAgg : WorkTypeAgg
  professionalAgg : WorkTypeAgg
  capacity : Capacity
deriving DecidableEq, Repr

/-- `entries.forEach` accumulation of `analysis.summary.totalHours`
(`hours = entry.minutes / 60`). -/
def totalHoursQ (entries : List TimeEntry) : ℚ :=
  entries.foldl (fun acc e => acc + (e.minutes : ℚ) / 60) 0

/-- Accumulation of one `byWorkType` leaf. -/
def workTypeAgg (entries : List TimeEntry) (w : WorkType) : WorkTypeAgg :=
  entries.foldl
    (fun acc e =>
      if categorizeWorkType e = w then
        ⟨acc.hours + (e.minutes : ℚ) / 60, acc.entries + 1⟩
      else acc)
    ⟨0, 0⟩

/-- `monthsAnalyzed` / `monthsIntoSOW` of `analyzeTeamData`:
`((now.getFullYear() - sowStart.getFullYear()) * 12 + (now.getMonth() -
sowStart.getMonth())) + 1`, with `now` (the wall clock) passed explicitly as
a year and a 0-based month. -/
def monthsAnalyzed (nowYear nowMonth0 : ℕ) : ℤ :=
  ((nowYear : ℤ) - sowStartYear) * 12 + ((nowMonth0 : ℤ) - sowStartMonth0) + 1

/-- `analyzeTeamData(entries)` as written (the wall clock `new Date()` is
passed as `nowYear`/`nowMonth0`).  The source declares `sowStart` and `now`
twice with `const` in this one function scope (lines 173-174 and 226-228) —
a parse-time SyntaxError that prevents the whole module from loading, so the
real program never runs this function.  Both declaration pairs bind the same
expressions, so this definition embeds the single computation the written
body evidently intends; it is the intended semantics, not behavior the
artifact exhibits. -/
def analyzeTeamData (entries : List TimeEntry) (nowYear nowMonth0 : ℕ) :
    Analysis :=
  let months := monthsAnalyzed nowYear nowMonth0
  let total := totalHoursQ entries
  let expectedHoursByTime : ℚ := sowMonthlyHours * (months : ℚ)
  let logUtilQ : ℚ := total / expectedHoursByTime * 100
  let actualUtilQ : ℚ := csvTotalHours / sowTotalHours * 100
  let actualAvgQ : ℚ := csvTotalHours / csvMonthsComplete
  let neededQ : ℚ := csvHoursRemaining / csvMonthsRemaining
  { summary :=
      { totalHours := total
        totalEntries := entries.length
        monthsAnalyzed := months }
    maintenanceAgg := workTypeAgg entries .supportMaintenance
    professionalAgg := workTypeAgg entries .professionalServices
    capacity :=
      { contractTotalHours := sowTotalHours
        contractMonthlyHours := sowMonthlyHours
        logDataUtilization := toFixed1 logUtilQ
        logDataUtilizationQ := logUtilQ
        actualTotalUsed := csvTotalHours
        actualUtilization := toFixed1 actualUtilQ
        actualUtilizationQ := roundTo1 actualUtilQ
        actualMonthlyAverage := toFixed1 actualAvgQ
        actualMonthlyAverageQ := roundTo1 actualAvgQ
        hoursRemaining := csvHoursRemaining
        monthsRemaining := csvMonthsRemaining
        avgHoursNeededPerMonth := toFixed1 neededQ
        avgHoursNeededPerMonthQ := roundTo1 neededQ } }

/-! ## scripts/team-analysis.js : summary report (the two sections the
claims are about) -/

/-- The Key Finding block of `generateSummaryReport` (one pushed line plus
the following `report.push('')`).  `monthlyNeeded =
parseFloat(analysis.capacity.avgHoursNeededPerMonth)`, compared against
`CONFIG.sowMonthlyHours * 0.9` and `CONFIG.sowMonthlyHours`.
`generateSummaryReport` itself redeclares `const monthlyNeeded` (lines 292
and 332) — a second parse-time SyntaxError in the module — so the real
program never evaluates this branch; this is the written text's intended
semantics. -/
def keyFindingLines (a : Analysis) : List String :=
  let monthlyNeeded := a.capacity.avgHoursNeededPerMonthQ
  (if monthlyNeeded ≤ sowMonthlyHours * (9/10) then
    "\n💡 **Key Finding**: Room for modest growth - can accommodate some new initiatives within SOW."
  else if monthlyNeeded ≤ sowMonthlyHours then
    "\n⚖️ **Key Finding**: Operating near SOW capacity - need careful prioritization for new initiatives."
  else
    "\n⚠️ **Key Finding**: Would exceed SOW monthly capacity - may need resource strategy adjustments.")
  :: [""]

/-- The `## 🎯 Recommendations for JE Meeting` block of
`generateSummaryReport`: the header plus the three lines of the branch
selected by comparing `monthlyNeeded` against `sowMonthlyHours * 0.85` and
`sowMonthlyHours * 0.95`.  As with `keyFindingLines`, the duplicate
`const monthlyNeeded` declaration means the shipped module never parses and
never renders these lines; this embeds the written text's intended
semantics. -/
def recommendationLines (a : Analysis) : List String :=
  let monthlyNeeded := a.capacity.avgHoursNeededPerMonthQ
  "## 🎯 Recommendations for JE Meeting" ::
  (if monthlyNeeded ≤ sowMonthlyHours * (85/100) then
    ["1. **Moderate Capacity Available**: Can accommodate select new initiatives",
     "2. **Prioritize Initiatives**: Choose highest-value professional services work",
     "3. **Scale Gradually**: Increase team utilization within SOW limits"]
  else if monthlyNeeded ≤ sowMonthlyHours * (95/100) then
    ["1. **Limited Additional Capacity**: Approaching SOW monthly limits",
     "2. **Strategic Initiative Selection**: Focus on initiatives already in Professional Services scope",
     "3. **Consider Trade-offs**: May need to reduce some maintenance scope for major initiatives"]
  else
    ["1. **At SOW Capacity**: Additional initiatives may require resource adjustments",
     "2. **Client Services Option**: Consider CS resources for specialized initiatives",
     "3. **SOW Discussion**: May need to discuss scope adjustments with customer"])

/-- `utilizationRate = parseFloat(analysis.capacity.actualUtilization)` of
`generateSummaryReport` (computed there and then never read by any branch). -/
def summaryUtilizationRate (a : Analysis) : ℚ :=
  a.capacity.actualUtilizationQ

/-! ## scripts/team-analysis.js : loading and `main` -/

/-- `isDateInRange(dateString, startDate, endDate)`: `endDate === null`
falls back to `new Date()` (here: today's ISO date string); well-formed ISO
dates compare chronologically by code units. -/
def isDateInRange (dateString startDate : String) (endDate : Option String)
    (nowDate : String) : Bool :=
  strLe startDate dateString &&
    strLe dateString (match endDate with | some d => d | none => nowDate)

/-- `loadTeamData(startDate, endDate)` as written: an absent logs directory
yields `[]` (after an error print); otherwise each file's array is
date-filtered and concatenated in file order.  The file system is passed as
`dirExists` plus the parsed per-file entry arrays.  The shipped module never
parses (see above), so this function is never actually invoked by the
artifact; this is the written text's intended semantics. -/
def loadTeamData (dirExists : Bool) (files : List (List TimeEntry))
    (startDate : String) (endDate : Option String) (nowDate : String) :
    List TimeEntry :=
  if !dirExists then []
  else (files.map (fun data =>
    data.filter (fun e => isDateInRange e.date startDate endDate nowDate))).flatten

/-- The outcome of `main()` as written: either the explicit `❌ No data
found` early return (before `analyzeTeamData` is ever called, so no
utilization division is performed), or a report over the computed analysis.
In the shipped artifact neither outcome ever occurs: the module dies with a
SyntaxError during parsing, before `main` exists. -/
inductive MainOutcome where
  | noData
  | report (a : Analysis)
deriving DecidableEq, Repr

/-- The `entries.length === 0` guard that the written `main()` would
perform.  The real script never reaches it — the module does not parse — so
this models the intended control flow only. -/
def runMain (entries : List TimeEntry) (nowYear nowMonth0 : ℕ) :
    MainOutcome :=
  if entries.length = 0 then .noData
  else .report (analyzeTeamData entries nowYear nowMonth0)

/-! ## Helper lemmas : contents of the classifier's accumulator -/

/-- All entries stored in a `Categories` accumulator, as a multiset. -/
def contentsM (c : Categories) : Multiset TimeEntry :=
  (↑((c.clientProjects.map Prod.snd).flatten) : Multiset TimeEntry)
    + ↑c.lsmGeneral + ↑c.internal + ↑c.other

lemma addToGroup_get_self (g : List (String × List TimeEntry)) (key : String) (e : TimeEntry) :
    groupGet (addToGroup g key e) key = groupGet g key ++ [e] := by
  induction g with
  | nil => simp [addToGroup, groupGet]
  | cons kv rest ih =>
    obtain ⟨k, es⟩ := kv
    by_cases h : k = key
    · subst h; simp [addToGroup, groupGet]
    · simp only [addToGroup, groupGet, if_neg h, List.find?_cons, decide_eq_true_eq, h,
        if_false, decide_False]
      simp only [groupGet] at ih
      simpa [h] using ih

lemma addToGroup_get_ne (g : List (String × List TimeEntry)) (key k : String) (e : TimeEntry)
    (h : k ≠ key) : groupGet (addToGroup g key e) k = groupGet g k := by
  induction g with
  | nil => simp [addToGroup, groupGet, Ne.symm h]
  | cons kv rest ih =>
    obtain ⟨k', es⟩ := kv
    by_cases h' : k' = key
    · subst h'
      simp [addToGroup, groupGet, Ne.symm h]
    · by_cases h'' : k' = k
      · subst h''; simp [addToGroup, groupGet, h']
      · simp only [addToGroup, groupGet, if_neg h', List.find?_cons, h'', decide_False,
          if_false] at ih ⊢
        simpa [h''] using ih

lemma foldl_catStep_lsm (cfg : GeekbotConfig) (es : List TimeEntry) (c : Categories) :
    (es.foldl (catStep cfg) c).lsmGeneral
      = c.lsmGeneral ++ es.filter (fun e => classifyEntry cfg e = Bucket.lsmGeneral) := by
  induction es generalizing c with
  | nil => simp
  | cons e es ih =>
    simp only [List.foldl_cons, List.filter_cons]
    rw [ih]
    cases h : classifyEntry cfg e <;> simp [catStep, h]

lemma foldl_catStep_internal (cfg : GeekbotConfig) (es : List TimeEntry) (c : Categories) :
    (es.foldl (catStep cfg) c).internal
      = c.internal ++ es.filter (fun e => classifyEntry cfg e = Bucket.internal) := by
  induction es generalizing c with
  | nil => simp
  | cons e es ih =>
    simp only [List.foldl_cons, List.filter_cons]
    rw [ih]
    cases h : classifyEntry cfg e <;> simp [catStep, h]

lemma foldl_catStep_other (cfg : GeekbotConfig) (es : List TimeEntry) (c : Categories) :
    (es.foldl (catStep cfg) c).other
      = c.other ++ es.filter (fun e => classifyEntry cfg e = Bucket.other) := by
  induction es generalizing c with
  | nil => simp
  | cons e es ih =>
    simp only [List.foldl_cons, List.filter_cons]
    rw [ih]
    cases h : classifyEntry cfg e <;> simp [catStep, h]

lemma foldl_catStep_group (cfg : GeekbotConfig) (es : List TimeEntry) (c : Categories)
    (k : String) :
    groupGet (es.foldl (catStep cfg) c).clientProjects k
      = groupGet c.clientProjects k
        ++ es.filter (fun e => classifyEntry cfg e = Bucket.clientProject k) := by
  induction es generalizing c with
  | nil => simp
  | cons e es ih =>
    simp only [List.foldl_cons, List.filter_cons]
    rw [ih]
    cases h : classifyEntry cfg e with
    | clientProject key =>
      by_cases hk : key = k
      · subst hk
        simp [catStep, h, addToGroup_get_self]
      · simp [catStep, h, addToGroup_get_ne _ _ _ _ (Ne.symm hk), hk]
    | lsmGeneral => simp [catStep, h]
    | internal => simp [catStep, h]
    | other => simp [catStep, h]

lemma addToGroup_flatten (g : List (String × List TimeEntry)) (key : String) (e : TimeEntry) :
    (↑(((addToGroup g key e).map Prod.snd).flatten) : Multiset TimeEntry)
      = ↑((g.map Prod.snd).flatten) + {e} := by
  induction g with
  | nil => simp [addToGroup]
  | cons kv rest ih =>
    obtain ⟨k, es⟩ := kv
    by_cases h : k = key
    · subst h
      have hrw : addToGroup ((k, es) :: rest) k e = (k, es ++ [e]) :: rest := by
        simp [addToGroup]
      rw [hrw]
      simp only [List.map_cons, List.flatten_cons, List.append_assoc]
      simp only [← Multiset.coe_add, Multiset.coe_singleton]
      abel
    · have hrw : addToGroup ((k, es) :: rest) key e = (k, es) :: addToGroup rest key e := by
        simp [addToGroup, h]
      rw [hrw]
      simp only [List.map_cons, List.flatten_cons]
      simp only [← Multiset.coe_add]
      rw [ih]
      abel

lemma catStep_contents (cfg : GeekbotConfig) (c : Categories) (e : TimeEntry) :
    contentsM (catStep cfg c e) = contentsM c + {e} := by
  unfold catStep
  cases h : classifyEntry cfg e with
  | clientProject key =>
    simp only [contentsM, addToGroup_flatten]
    abel
  | lsmGeneral =>
    simp only [contentsM, ← Multiset.coe_add, Multiset.coe_singleton]
    abel
  | internal =>
    simp only [contentsM, ← Multiset.coe_add, Multiset.coe_singleton]
    abel
  | other =>
    simp only [contentsM, ← Multiset.coe_add, Multiset.coe_singleton]
    abel

lemma foldl_catStep_contents (cfg : GeekbotConfig) (es : List TimeEntry) (c : Categories) :
    contentsM (es.foldl (catStep cfg) c) = contentsM c + ↑es := by
  induction es generalizing c with
  | nil => simp
  | cons e es ih =>
    simp only [List.foldl_cons]
    rw [ih, catStep_contents]
    simp only [← Multiset.cons_coe, ← Multiset.singleton_add]
    abel

lemma otherGrouped_foldl_get (l : List TimeEntry) (g : List (String × List TimeEntry))
    (k : String) :
    groupGet (l.foldl (fun g e => addToGroup g (otherKey e) e) g) k
      = groupGet g k ++ l.filter (fun e => otherKey e = k) := by
  induction l generalizing g with
  | nil => simp
  | cons e l ih =>
    simp only [List.foldl_cons, List.filter_cons]
    rw [ih]
    by_cases h : otherKey e = k
    · subst h
      simp [addToGroup_get_self]
    · simp [addToGroup_get_ne _ _ _ _ (fun hk => h hk.symm), h]

/-- The Other render groups are exactly the order-preserving fibers of
`otherKey` over the Other bucket. -/
lemma otherGrouped_get (c : Categories) (k : String) :
    groupGet (otherGrouped c) k = c.other.filter (fun e => otherKey e = k) := by
  unfold otherGrouped
  rw [otherGrouped_foldl_get]
  simp [groupGet]

/-- The Internal bucket is the order-preserving fiber of `classifyEntry`
over `Bucket.internal` on the user-filtered corpus. -/
lemma categorize_internal_eq (cfg : GeekbotConfig) (es : List TimeEntry) (uid : Nat) :
    (categorizeEntriesForGeekbot cfg es uid).internal
      = (es.filter (fun e => e.user.id = uid)).filter
          (fun e => classifyEntry cfg e = Bucket.internal) := by
  unfold categorizeEntriesForGeekbot
  rw [foldl_catStep_internal]
  simp [emptyCategories]

/-- The LSM General bucket as a fiber of `classifyEntry`. -/
lemma categorize_lsm_eq (cfg : GeekbotConfig) (es : List TimeEntry) (uid : Nat) :
    (categorizeEntriesForGeekbot cfg es uid).lsmGeneral
      = (es.filter (fun e => e.user.id = uid)).filter
          (fun e => classifyEntry cfg e = Bucket.lsmGeneral) := by
  unfold categorizeEntriesForGeekbot
  rw [foldl_catStep_lsm]
  simp [emptyCategories]

/-- The Other bucket as a fiber of `classifyEntry`. -/
lemma categorize_other_eq (cfg : GeekbotConfig) (es : List TimeEntry) (uid : Nat) :
    (categorizeEntriesForGeekbot cfg es uid).other
      = (es.filter (fun e => e.user.id = uid)).filter
          (fun e => classifyEntry cfg e = Bucket.other) := by
  unfold categorizeEntriesForGeekbot
  rw [foldl_catStep_other]
  simp [emptyCategories]

/-- Each client-project group as a fiber of `classifyEntry`. -/
lemma categorize_group_eq (cfg : GeekbotConfig) (es : List TimeEntry) (uid : Nat)
    (k : String) :
    groupGet (categorizeEntriesForGeekbot cfg es uid).clientProjects k
      = (es.filter (fun e => e.user.id = uid)).filter
          (fun e => classifyEntry cfg e = Bucket.clientProject k) := by
  unfold categorizeEntriesForGeekbot
  rw [foldl_catStep_group]
  simp [emptyCategories, groupGet]

/-- Every section produced by the client block carries kind `client` and the
entries of its group. -/
lemma mem_clientSections (c : Categories) (s : RSection) (hs : s ∈ clientSections c) :
    s.kind = SectionKind.client ∧ s.entries = groupGet c.clientProjects s.header := by
  unfold clientSections at hs
  rcases List.mem_filterMap.mp hs with ⟨key, _, hf⟩
  by_cases h : (groupGet c.clientProjects key).length > 0
  · rw [if_pos h] at hf
    cases hf
    exact ⟨rfl, rfl⟩
  · rw [if_neg h] at hf
    cases hf

/-- The LSM block yields at most the one section of kind `lsmGeneral`. -/
lemma mem_lsmSection (c : Categories) (s : RSection) (hs : s ∈ lsmSection c) :
    s.kind = SectionKind.lsmGeneral ∧ s.entries = c.lsmGeneral := by
  unfold lsmSection at hs
  by_cases h : c.lsmGeneral.length > 0
  · rw [if_pos h] at hs
    rcases List.mem_singleton.mp hs with rfl
    exact ⟨rfl, rfl⟩
  · rw [if_neg h] at hs
    cases hs

/-- The Other block yields sections of kind `otherGroup` holding their
group's entries. -/
lemma mem_otherSections (c : Categories) (s : RSection) (hs : s ∈ otherSections c) :
    s.kind = SectionKind.otherGroup ∧ s.entries = groupGet (otherGrouped c) s.header := by
  unfold otherSections at hs
  by_cases h : c.other.length > 0
  · rw [if_pos h] at hs
    rcases List.mem_map.mp hs with ⟨key, _, hf⟩
    cases hf
    exact ⟨rfl, rfl⟩
  · rw [if_neg h] at hs
    cases hs

/-! ## Concrete fixtures used by counterexamples and witnesses -/

/-- A sample entry author with the script's default Noko user id 8372. -/
def exUser : NokoUser := ⟨8372, "Marcos", "Hernandez", "marcos@example.com"⟩

/-- A sample configuration: two discovered project directories, no custom
`PROJECT_MAPPINGS` (the script's fallback default). -/
def cfgEx : GeekbotConfig := ⟨["CATIC", "SDSU"], []⟩

/-- An entry that carries an internal tag *and* an `[LSM]`-marked project
name. -/
def lsmTaggedInternalEntry : TimeEntry :=
  ⟨101, "2025-09-03", 30, "Sprint planning", exUser,
    some ⟨900001, "[LSM] CATIC Support"⟩, [⟨"internal"⟩]⟩

/-- An entry with an internal tag and no `[LSM]` marker. -/
def plainInternalEntry : TimeEntry :=
  ⟨102, "2025-09-03", 60, "Company all hands", exUser,
    some ⟨123456, "Lullabot"⟩, [⟨"Internal Meeting"⟩]⟩

/-! ## Claim C1 : classification is total and exclusive -/

/-- C1.  Classification is total and exclusive: for every corpus, user id and
date range, the multiset union of the four buckets built by
`categorizeEntriesForGeekbot` (client-project groups, LSM General, Internal,
Other — before any `excludeInternal` drop) equals the date- and user-filtered
input, each surviving entry occurring exactly once. -/
theorem geekbot_classification_partitions (cfg : GeekbotConfig)
    (allEntries : List TimeEntry) (userId : Nat) (cutoffDateStr todayDateStr : String) :
    contentsM (categorizeEntriesForGeekbot cfg
        (dateFilter allEntries cutoffDateStr todayDateStr) userId)
      = ↑((dateFilter allEntries cutoffDateStr todayDateStr).filter
          (fun e => e.user.id = userId)) := by
  unfold categorizeEntriesForGeekbot
  rw [foldl_catStep_contents]
  simp [contentsM, emptyCategories]

/-! ## Claim C2 : rule priority order -/

/-- C2 counterexample.  The claim says an internal/sales-tagged entry goes to
the Internal bucket even when its project name contains `"[LSM]"`.  The code
checks the `[LSM]` project-name rule *first*: this concrete entry carries an
internal tag yet is classified into the `"CATIC"` client bucket, not
Internal. -/
theorem classify_internal_tag_lsm_name_not_internal :
    hasInternalTag lsmTaggedInternalEntry = true ∧
    classifyEntry cfgEx lsmTaggedInternalEntry ≠ Bucket.internal ∧
    classifyEntry cfgEx lsmTaggedInternalEntry = Bucket.clientProject "CATIC" := by
  decide

/-- C2 (amended).  Classification evaluates the Client Project rule first:
an entry whose project name contains `"[LSM]"` is assigned to a ClientProject
bucket even when it carries an internal/sales tag; an internal/sales-tagged
entry is assigned to Internal only when its project name does not contain
`"[LSM]"`. -/
theorem classify_priority_order (cfg : GeekbotConfig) (e : TimeEntry) :
    (containsStr (projectNameOf e) "[LSM]" = true →
      classifyEntry cfg e = Bucket.clientProject (categoryKeyFor cfg (projectNameOf e))) ∧
    (containsStr (projectNameOf e) "[LSM]" = false → hasInternalTag e = true →
      classifyEntry cfg e = Bucket.internal) := by
  constructor
  · intro h
    unfold classifyEntry
    simp [h]
  · intro h ht
    unfold classifyEntry
    simp [h, ht]

/-- Witness for `classify_priority_order` at the two concrete entries. -/
theorem classify_priority_order_witness :
    classifyEntry cfgEx lsmTaggedInternalEntry
        = Bucket.clientProject (categoryKeyFor cfgEx (projectNameOf lsmTaggedInternalEntry)) ∧
    classifyEntry cfgEx plainInternalEntry = Bucket.internal :=
  ⟨(classify_priority_order cfgEx lsmTaggedInternalEntry).1 (by decide),
   (classify_priority_order cfgEx plainInternalEntry).2 (by decide) (by decide)⟩

/-! ## Claim C3 : de-duplication by id -/

lemma dedupById_mem (l : List TimeEntry) (x : TimeEntry) :
    x ∈ dedupById l → x ∈ l := by
  induction l using dedupById.induct with
  | case1 => simp [dedupById]
  | case2 e rest ih =>
    intro hx
    rw [dedupById] at hx
    rcases List.mem_cons.mp hx with h | h
    · exact h ▸ List.mem_cons_self _ _
    · exact List.mem_cons_of_mem _ (List.mem_of_mem_filter (ih h))

lemma dedupById_pairwise (l : List TimeEntry) :
    (dedupById l).Pairwise (fun a b => a.id ≠ b.id) := by
  induction l using dedupById.induct with
  | case1 => simp [dedupById]
  | case2 e rest ih =>
    rw [dedupById]
    refine List.Pairwise.cons (fun b hb => ?_) ih
    have hmem := dedupById_mem _ _ hb
    have := List.of_mem_filter hmem
    simpa [eq_comm] using of_decide_eq_true this

/-- C3 counterexample.  The geekbot classifier does *not* de-duplicate by
`id`: the same internal-tagged entry loaded twice (as from two files) yields
an Internal bucket with two copies and an `=== Internal ===` section with two
lines (`excludeInternal = false`), while classifying the id-deduplicated
corpus yields one — so classifying the concatenation is not the same as
classifying the de-duplicated corpus. -/
theorem dedup_cex :
    dedupById [plainInternalEntry, plainInternalEntry] = [plainInternalEntry] ∧
    (categorizeEntriesForGeekbot cfgEx [plainInternalEntry, plainInternalEntry] 8372).internal
      = [plainInternalEntry, plainInternalEntry] ∧
    (geekbotSections
        (categorizeEntriesForGeekbot cfgEx [plainInternalEntry, plainInternalEntry] 8372)
        false).map (fun s => (s.header, s.entries.length)) = [("Internal", 2)] :=
  ⟨by simp [dedupById], by decide, by decide⟩

/-- C3 (amended).  De-duplication by `id` happens only in the weekly
(`filterLsmEntries`) path, whose output carries each `id` at most once; the
geekbot classifier buckets the concatenated corpus as-is, so two same-id
copies of an Internal-classified entry produce two entries in the Internal
bucket (hence two output lines when `excludeInternal` is false). -/
theorem dedup_only_weekly_path (entries : List TimeEntry) (cfg : GeekbotConfig)
    (uid : Nat) (e : TimeEntry) :
    (filterLsmEntries entries).Pairwise (fun a b => a.id ≠ b.id) ∧
    (e.user.id = uid → classifyEntry cfg e = Bucket.internal →
      (categorizeEntriesForGeekbot cfg [e, e] uid).internal = [e, e]) := by
  constructor
  · exact dedupById_pairwise _
  · intro huid hcls
    unfold categorizeEntriesForGeekbot
    rw [foldl_catStep_internal]
    simp [emptyCategories, huid, hcls]

/-- Witness for `dedup_only_weekly_path` at the duplicated internal entry. -/
theorem dedup_only_weekly_path_witness :
    (filterLsmEntries [plainInternalEntry, plainInternalEntry]).Pairwise
        (fun a b => a.id ≠ b.id) ∧
    (categorizeEntriesForGeekbot cfgEx [plainInternalEntry, plainInternalEntry] 8372).internal
      = [plainInternalEntry, plainInternalEntry] :=
  ⟨(dedup_only_weekly_path [plainInternalEntry, plainInternalEntry] cfgEx 8372
      plainInternalEntry).1,
   (dedup_only_weekly_path [plainInternalEntry, plainInternalEntry] cfgEx 8372
      plainInternalEntry).2 (by decide) (by decide)⟩

/-! ## Claim C6 : `excludeInternal` removes exactly the Internal bucket -/

/-- C6.  Setting `excludeInternal` removes exactly the Internal section and
nothing else: the rendered section list with `excludeInternal = true` equals
the `false` run with its Internal section filtered out (so every other
bucket's rendered contents are identical), and no section of the `true` run
contains any Internal-classified entry — such entries do not fall through to
a later rule. -/
theorem exclude_internal_frame (cfg : GeekbotConfig) (allEntries : List TimeEntry)
    (userId : Nat) (cutoffDateStr todayDateStr : String) :
    rawGeekbot cfg allEntries userId cutoffDateStr todayDateStr true
      = (rawGeekbot cfg allEntries userId cutoffDateStr todayDateStr false).filter
          (fun s => s.kind ≠ SectionKind.internal) ∧
    ((rawGeekbot cfg allEntries userId cutoffDateStr todayDateStr true).all
        (fun s => s.entries.all
          (fun e => classifyEntry cfg e ≠ Bucket.internal))) = true := by
  unfold rawGeekbot
  set c := categorizeEntriesForGeekbot cfg
    (dateFilter allEntries cutoffDateStr todayDateStr) userId with hc
  have hcl : (clientSections c).filter (fun s => s.kind ≠ SectionKind.internal)
      = clientSections c := by
    refine List.filter_eq_self.mpr (fun s hs => ?_)
    simp [(mem_clientSections c s hs).1]
  have hlsm : (lsmSection c).filter (fun s => s.kind ≠ SectionKind.internal)
      = lsmSection c := by
    refine List.filter_eq_self.mpr (fun s hs => ?_)
    simp [(mem_lsmSection c s hs).1]
  have hoth : (otherSections c).filter (fun s => s.kind ≠ SectionKind.internal)
      = otherSections c := by
    refine List.filter_eq_self.mpr (fun s hs => ?_)
    simp [(mem_otherSections c s hs).1]
  have hint : (internalSection c false).filter (fun s => s.kind ≠ SectionKind.internal)
      = [] := by
    unfold internalSection
    by_cases h : c.internal.length > 0 <;> simp [h]
  have hintT : internalSection c true = [] := by
    simp [internalSection]
  constructor
  · unfold geekbotSections
    simp only [List.filter_append, hcl, hlsm, hoth, hint, hintT, List.append_nil]
  · rw [List.all_eq_true]
    intro s hs
    rw [List.all_eq_true]
    intro e he
    unfold geekbotSections at hs
    rw [hintT] at hs
    simp only [List.append_nil, List.mem_append] at hs
    rcases hs with (hs | hs) | hs
    · rcases mem_clientSections c s hs with ⟨_, hent⟩
      rw [hent, hc, categorize_group_eq] at he
      have := of_decide_eq_true (List.mem_filter.mp he).2
      simp [this]
    · rcases mem_lsmSection c s hs with ⟨_, hent⟩
      rw [hent, hc, categorize_lsm_eq] at he
      have := of_decide_eq_true (List.mem_filter.mp he).2
      simp [this]
    · rcases mem_otherSections c s hs with ⟨_, hent⟩
      rw [hent, otherGrouped_get] at he
      have he2 := List.mem_of_mem_filter he
      rw [hc, categorize_other_eq] at he2
      have := of_decide_eq_true (List.mem_filter.mp he2).2
      simp [this]

/-! ## Claim C8 : output ordering -/

lemma chLe_total (as bs : List Char) : chLe as bs = true ∨ chLe bs as = true := by
  induction as generalizing bs with
  | nil => left; simp [chLe]
  | cons a as ih =>
    cases bs with
    | nil => right; simp [chLe]
    | cons b bs =>
      by_cases h : a = b
      · subst h
        simpa [chLe] using ih bs
      · rcases lt_or_gt_of_ne h with hlt | hgt
        · left; simp [chLe, h, hlt]
        · right; simp [chLe, Ne.symm h, hgt]

lemma chLe_trans (as bs cs : List Char) (h1 : chLe as bs = true)
    (h2 : chLe bs cs = true) : chLe as cs = true := by
  induction as generalizing bs cs with
  | nil => simp [chLe]
  | cons a as ih =>
    cases bs with
    | nil => simp [chLe] at h1
    | cons b bs =>
      cases cs with
      | nil => simp [chLe] at h2
      | cons c cs =>
        by_cases hab : a = b
        · subst hab
          by_cases hac : a = c
          · subst hac
            simp only [chLe, if_pos rfl] at h1 h2 ⊢
            exact ih bs cs h1 h2
          · simp only [chLe, if_pos rfl] at h1
            simpa [chLe, hac] using h2
        · by_cases hbc : b = c
          · subst hbc
            simpa [chLe, hab] using h1
          · simp only [chLe, if_neg hab] at h1
            simp only [chLe, if_neg hbc] at h2
            have hab' := of_decide_eq_true h1
            have hbc' := of_decide_eq_true h2
            have hac' := lt_trans hab' hbc'
            simp [chLe, ne_of_lt hac', hac']

lemma strLe_total (a b : String) : strLe a b = true ∨ strLe b a = true :=
  chLe_total a.toList b.toList

lemma strLe_trans (a b c : String) (h1 : strLe a b = true) (h2 : strLe b c = true) :
    strLe a c = true :=
  chLe_trans a.toList b.toList c.toList h1 h2

lemma insertStr_perm (a : String) (l : List String) :
    List.Perm (insertStr a l) (a :: l) := by
  induction l with
  | nil => simp [insertStr]
  | cons b rest ih =>
    unfold insertStr
    by_cases h : strLe a b = true
    · rw [if_pos h]
    · rw [if_neg h]
      exact (ih.cons b).trans (List.Perm.swap _ _ _)

lemma sortStrs_perm (l : List String) : List.Perm (sortStrs l) l := by
  induction l with
  | nil => simp [sortStrs]
  | cons a rest ih =>
    unfold sortStrs
    exact (insertStr_perm a (sortStrs rest)).trans (ih.cons a)

lemma insertStr_pairwise (a : String) (l : List String)
    (h : l.Pairwise (fun x y => strLe x y = true)) :
    (insertStr a l).Pairwise (fun x y => strLe x y = true) := by
  induction l with
  | nil => simp [insertStr]
  | cons b rest ih =>
    rcases List.pairwise_cons.mp h with ⟨hb, hrest⟩
    unfold insertStr
    by_cases hab : strLe a b = true
    · rw [if_pos hab]
      refine List.pairwise_cons.mpr ⟨?_, h⟩
      intro x hx
      rcases List.mem_cons.mp hx with rfl | hx
      · exact hab
      · exact strLe_trans _ _ _ hab (hb x hx)
    · rw [if_neg hab]
      refine List.pairwise_cons.mpr ⟨?_, ih hrest⟩
      intro x hx
      have hx' := (insertStr_perm a rest).mem_iff.mp hx
      rcases List.mem_cons.mp hx' with rfl | hx''
      · rcases strLe_total x b with h' | h'
        · exact absurd h' hab
        · exact h'
      · exact hb x hx''

lemma sortStrs_pairwise (l : List String) :
    (sortStrs l).Pairwise (fun x y => strLe x y = true) := by
  induction l with
  | nil => simp [sortStrs]
  | cons a rest ih =>
    unfold sortStrs
    exact insertStr_pairwise a _ ih

lemma clientSections_headers (c : Categories) :
    (clientSections c).map RSection.header
      = (sortStrs (c.clientProjects.map Prod.fst)).filter
          (fun k => (groupGet c.clientProjects k).length > 0) := by
  unfold clientSections
  generalize sortStrs (c.clientProjects.map Prod.fst) = keys
  induction keys with
  | nil => simp
  | cons k keys ih =>
    by_cases h : (groupGet c.clientProjects k).length > 0
    · simp [h, ih]
    · simp [h, ih]

lemma clientSections_headers_pairwise (c : Categories) :
    ((clientSections c).map RSection.header).Pairwise (fun a b => strLe a b = true) := by
  rw [clientSections_headers]
  exact (sortStrs_pairwise _).filter _

lemma otherSections_headers_pairwise (c : Categories) :
    ((otherSections c).map RSection.header).Pairwise (fun a b => strLe a b = true) := by
  unfold otherSections
  by_cases h : c.other.length > 0
  · rw [if_pos h, List.map_map]
    have hcomp : (RSection.header ∘ fun key =>
        (⟨SectionKind.otherGroup, key, groupGet (otherGrouped c) key⟩ : RSection)) = id := by
      funext k; rfl
    rw [hcomp, List.map_id]
    exact sortStrs_pairwise _
  · rw [if_neg h]
    simp


lemma mem_internalSection (c : Categories) (excl : Bool) (s : RSection)
    (hs : s ∈ internalSection c excl) :
    s.kind = SectionKind.internal ∧ s.entries = c.internal := by
  unfold internalSection at hs
  by_cases h : (!excl && c.internal.length > 0) = true
  · rw [if_pos h] at hs
    rcases List.mem_singleton.mp hs with rfl
    exact ⟨rfl, rfl⟩
  · rw [if_neg h] at hs
    cases hs

def eCatic : TimeEntry :=
  ⟨201, "2025-09-10", 90, "Fix deploy pipeline", exUser,
    some ⟨900001, "[LSM] CATIC Support"⟩, []⟩

def eSdsu : TimeEntry :=
  ⟨202, "2025-09-11", 30, "Campus theme updates", exUser,
    some ⟨900002, "[LSM] SDSU Maintenance"⟩, []⟩

def eLsmGen : TimeEntry :=
  ⟨203, "2025-09-12", 15, "Weekly triage", exUser, some ⟨560795, "LSM"⟩, []⟩

def eOtherZ : TimeEntry :=
  ⟨204, "2025-09-13", 20, "Misc support", exUser, some ⟨700001, "ZProject"⟩, []⟩

def eOtherA : TimeEntry :=
  ⟨205, "2025-09-14", 25, "Planning", exUser, some ⟨700002, "Alpha"⟩, []⟩

def otherUserEntry : TimeEntry :=
  ⟨206, "2025-09-14", 25, "Planning", ⟨999, "Sam", "Lee", "sam@example.com"⟩,
    some ⟨700002, "Alpha"⟩, []⟩

def staleEntry : TimeEntry :=
  ⟨207, "2025-08-01", 25, "Old work", exUser, some ⟨700002, "Alpha"⟩, []⟩

def corpusEx : List TimeEntry :=
  [eOtherZ, eSdsu, eLsmGen, plainInternalEntry, eCatic, eOtherA, otherUserEntry,
   staleEntry]

/-- C8.  Output ordering: the rendered output is the client-project sections,
then the LSM General section, then the Internal section (when not excluded),
then the Other sections; client sections are sorted alphabetically (JS
code-unit order) by derived display name and Other sections by raw project
name; and within every section the entries are the order-preserving fiber of
the classifier over the filtered corpus — i.e. they appear in file-read
order, not re-sorted by date. -/
theorem geekbot_output_order (cfg : GeekbotConfig) (allEntries : List TimeEntry)
    (userId : Nat) (cutoffDateStr todayDateStr : String) (excludeInternal : Bool) :
    let c := categorizeEntriesForGeekbot cfg
        (dateFilter allEntries cutoffDateStr todayDateStr) userId
    let es := (dateFilter allEntries cutoffDateStr todayDateStr).filter
        (fun e => e.user.id = userId)
    rawGeekbot cfg allEntries userId cutoffDateStr todayDateStr excludeInternal
      = clientSections c ++ lsmSection c ++ internalSection c excludeInternal
        ++ otherSections c ∧
    ((clientSections c).map RSection.header).Pairwise (fun a b => strLe a b = true) ∧
    ((otherSections c).map RSection.header).Pairwise (fun a b => strLe a b = true) ∧
    (∀ s ∈ clientSections c,
      s.entries = es.filter (fun e => classifyEntry cfg e = Bucket.clientProject s.header)) ∧
    (∀ s ∈ lsmSection c,
      s.entries = es.filter (fun e => classifyEntry cfg e = Bucket.lsmGeneral)) ∧
    (∀ s ∈ internalSection c excludeInternal,
      s.entries = es.filter (fun e => classifyEntry cfg e = Bucket.internal)) ∧
    (∀ s ∈ otherSections c,
      s.entries = (es.filter (fun e => classifyEntry cfg e = Bucket.other)).filter
        (fun e => otherKey e = s.header)) := by
  intro c es
  refine ⟨rfl, clientSections_headers_pairwise c, otherSections_headers_pairwise c,
    ?_, ?_, ?_, ?_⟩
  · intro s hs
    rw [(mem_clientSections c s hs).2, categorize_group_eq]
  · intro s hs
    rw [(mem_lsmSection c s hs).2, categorize_lsm_eq]
  · intro s hs
    rw [(mem_internalSection c excludeInternal s hs).2, categorize_internal_eq]
  · intro s hs
    rw [(mem_otherSections c s hs).2, otherGrouped_get, categorize_other_eq]

/-- Witness for `geekbot_output_order`: the four per-section membership
hypotheses discharged at a concrete eight-entry corpus. -/
theorem geekbot_output_order_witness :
    (⟨SectionKind.client, "CATIC", [eCatic]⟩ : RSection).entries
      = ((dateFilter corpusEx "2025-09-01" "2025-09-30").filter
          (fun e => e.user.id = 8372)).filter
          (fun e => classifyEntry cfgEx e = Bucket.clientProject "CATIC") ∧
    (⟨SectionKind.lsmGeneral, "LSM", [eLsmGen]⟩ : RSection).entries
      = ((dateFilter corpusEx "2025-09-01" "2025-09-30").filter
          (fun e => e.user.id = 8372)).filter
          (fun e => classifyEntry cfgEx e = Bucket.lsmGeneral) ∧
    (⟨SectionKind.internal, "Internal", [plainInternalEntry]⟩ : RSection).entries
      = ((dateFilter corpusEx "2025-09-01" "2025-09-30").filter
          (fun e => e.user.id = 8372)).filter
          (fun e => classifyEntry cfgEx e = Bucket.internal) ∧
    (⟨SectionKind.otherGroup, "Alpha", [eOtherA]⟩ : RSection).entries
      = (((dateFilter corpusEx "2025-09-01" "2025-09-30").filter
          (fun e => e.user.id = 8372)).filter
          (fun e => classifyEntry cfgEx e = Bucket.other)).filter
          (fun e => otherKey e = "Alpha") := by
  have h := geekbot_output_order cfgEx corpusEx 8372 "2025-09-01" "2025-09-30" false
  exact ⟨h.2.2.2.1 _ (by decide), h.2.2.2.2.1 _ (by decide),
    h.2.2.2.2.2.1 _ (by decide), h.2.2.2.2.2.2 _ (by decide)⟩



/-! ## Claim C9 : entry line and duration formatting -/

/-- C9.  Every entry renders as exactly one line
`<formatted duration> - <first name> <last initial>.: <description> (<date>)`,
and `formatTime` renders a non-negative minute count as `"Nm"` under 60
minutes (0 gives `"0m"`), `"Nh"` for an exact multiple of 60, and `"Nh Mm"`
otherwise. -/
theorem entry_line_format (m : Nat) (e : TimeEntry) :
    entryLine e = formatTime e.minutes ++ " - " ++ e.user.first_name ++ " " ++
      charAt0 e.user.last_name ++ ".: " ++ e.description ++ " (" ++ e.date ++ ")\n" ∧
    sectionText ⟨SectionKind.client, "X", [e]⟩
      = "\n=== X ===\n" ++ entryLine e ∧
    (m < 60 → formatTime m = toString m ++ "m") ∧
    (60 ≤ m → m % 60 = 0 → formatTime m = toString (m / 60) ++ "h") ∧
    (60 ≤ m → m % 60 ≠ 0 →
      formatTime m = toString (m / 60) ++ "h " ++ toString (m % 60) ++ "m") := by
  refine ⟨rfl, by simp [sectionText, String.join], ?_, ?_, ?_⟩
  · intro h
    have h0 : m / 60 = 0 := Nat.div_eq_of_lt h
    have hm : m % 60 = m := Nat.mod_eq_of_lt h
    simp [formatTime, h0, hm]
  · intro h hm
    have h0 : m / 60 ≠ 0 := by omega
    simp [formatTime, h0, hm]
  · intro h hm
    have h0 : m / 60 ≠ 0 := by omega
    simp [formatTime, h0, hm]

/-- Witness for `entry_line_format` at the spec's four sample durations. -/
theorem entry_line_format_witness :
    formatTime 45 = "45m" ∧ formatTime 120 = "2h" ∧ formatTime 125 = "2h 5m" ∧
    formatTime 0 = "0m" := by
  refine ⟨?_, ?_, ?_, ?_⟩
  · rw [(entry_line_format 45 plainInternalEntry).2.2.1 (by decide)]
    decide
  · rw [(entry_line_format 120 plainInternalEntry).2.2.2.1 (by decide) (by decide)]
    decide
  · rw [(entry_line_format 125 plainInternalEntry).2.2.2.2 (by decide) (by decide)]
    decide
  · rw [(entry_line_format 0 plainInternalEntry).2.2.1 (by decide)]
    decide

/-! ## Helper lemmas : summary-report branch constants -/

/-- `avgHoursNeededPerMonth` is the constant
`(2052.25 / 11).toFixed(1) = 186.6`, independent of the corpus. -/
lemma avgQ_const (entries : List TimeEntry) (nowYear nowMonth0 : ℕ) :
    (analyzeTeamData entries nowYear nowMonth0).capacity.avgHoursNeededPerMonthQ
      = 1866/10 := by
  simp only [analyzeTeamData]
  norm_num [roundTo1, csvHoursRemaining, csvMonthsRemaining]

/-- The Key Finding always selects the middle branch (186.6 > 180 = 90 % of
the 200 h budget, and 186.6 ≤ 200). -/
lemma keyFindingLines_const (entries : List TimeEntry) (nowYear nowMonth0 : ℕ) :
    keyFindingLines (analyzeTeamData entries nowYear nowMonth0)
      = ["\n⚖️ **Key Finding**: Operating near SOW capacity - need careful prioritization for new initiatives.",
         ""] := by
  unfold keyFindingLines
  rw [avgQ_const]
  norm_num [sowMonthlyHours]

/-- The Recommendations block always selects the middle branch
(170 < 186.6 ≤ 190). -/
lemma recommendationLines_const (entries : List TimeEntry) (nowYear nowMonth0 : ℕ) :
    recommendationLines (analyzeTeamData entries nowYear nowMonth0)
      = ["## 🎯 Recommendations for JE Meeting",
         "1. **Limited Additional Capacity**: Approaching SOW monthly limits",
         "2. **Strategic Initiative Selection**: Focus on initiatives already in Professional Services scope",
         "3. **Consider Trade-offs**: May need to reduce some maintenance scope for major initiatives"] := by
  unfold recommendationLines
  rw [avgQ_const]
  norm_num [sowMonthlyHours]

/-! ## Claim C5 : months analyzed and 100 % utilization -/

/-- The inclusive count of calendar months from month
(`startYear`, `startMonth0`) to month (`nowYear`, `nowMonth0`). -/
def inclusiveMonthCount (startYear startMonth0 : ℤ) (nowYear nowMonth0 : ℕ) : ℤ :=
  ((nowYear : ℤ) * 12 + nowMonth0) - (startYear * 12 + startMonth0) + 1

lemma logUtilQ_eq (entries : List TimeEntry) (nowYear nowMonth0 : ℕ) :
    (analyzeTeamData entries nowYear nowMonth0).capacity.logDataUtilizationQ
      = totalHoursQ entries
          / (sowMonthlyHours * ((monthsAnalyzed nowYear nowMonth0 : ℤ) : ℚ)) * 100 := by
  simp only [analyzeTeamData]

lemma toFixed1_100 : toFixed1 100 = "100.0" := by
  unfold toFixed1
  rw [show (⌊(100 : ℚ) * 10 + 1/2⌋ : ℤ) = 1000 by norm_num]
  decide

/-- C5 (intended semantics of a script that fails to parse).  In the written
computation, `monthsAnalyzed` is the inclusive month-count from the
configured contract start (2025-04) to the current date, and depends only on
the wall clock — not on the corpus nor on any requested start/end date
(which only filter the entry list upstream); and whenever the corpus'
minutes sum to exactly `monthlyBudget × monthsAnalyzed` hours, the computed
utilization is `100`, reported as `"100.0"`.  The shipped script never
performs this computation: its duplicate `const sowStart`/`const now`
declarations are a parse-time SyntaxError, so every invocation dies at load
— the claim describes the evident intent and the code's slip prevents it
(code bug). -/
theorem months_and_utilization (entries e1 e2 : List TimeEntry) (nowYear nowMonth0 : ℕ) :
    (analyzeTeamData entries nowYear nowMonth0).summary.monthsAnalyzed
        = inclusiveMonthCount sowStartYear sowStartMonth0 nowYear nowMonth0 ∧
    (analyzeTeamData e1 nowYear nowMonth0).summary.monthsAnalyzed
        = (analyzeTeamData e2 nowYear nowMonth0).summary.monthsAnalyzed ∧
    (0 < monthsAnalyzed nowYear nowMonth0 →
      totalHoursQ entries = sowMonthlyHours * ((monthsAnalyzed nowYear nowMonth0 : ℤ) : ℚ) →
      (analyzeTeamData entries nowYear nowMonth0).capacity.logDataUtilizationQ = 100 ∧
      (analyzeTeamData entries nowYear nowMonth0).capacity.logDataUtilization = "100.0") := by
  refine ⟨?_, rfl, ?_⟩
  · show monthsAnalyzed nowYear nowMonth0 = _
    unfold monthsAnalyzed inclusiveMonthCount
    ring
  · intro hpos htot
    have hden : sowMonthlyHours * ((monthsAnalyzed nowYear nowMonth0 : ℤ) : ℚ) ≠ 0 := by
      have hm : ((monthsAnalyzed nowYear nowMonth0 : ℤ) : ℚ) > 0 := by
        exact_mod_cast hpos
      have hb : (sowMonthlyHours : ℚ) > 0 := by norm_num [sowMonthlyHours]
      positivity
    have hq : (analyzeTeamData entries nowYear nowMonth0).capacity.logDataUtilizationQ
        = 100 := by
      rw [logUtilQ_eq, htot, div_self hden]
      norm_num
    refine ⟨hq, ?_⟩
    have hs : (analyzeTeamData entries nowYear nowMonth0).capacity.logDataUtilization
        = toFixed1 ((analyzeTeamData entries nowYear nowMonth0).capacity.logDataUtilizationQ) := by
      simp only [analyzeTeamData]
    rw [hs, hq, toFixed1_100]

/-- A corpus of exactly `200 h × 19 months = 228000` minutes. -/
def bigEntry : TimeEntry :=
  ⟨301, "2025-09-01", 228000, "All the contract hours", exUser,
    some ⟨900003, "GovHub"⟩, []⟩

/-- Witness for `months_and_utilization` at `now = 2026-10` (19 months into
the SOW) and a corpus of exactly `200 × 19` hours. -/
theorem months_and_utilization_witness :
    (analyzeTeamData [bigEntry] 2026 9).capacity.logDataUtilizationQ = 100 ∧
    (analyzeTeamData [bigEntry] 2026 9).capacity.logDataUtilization = "100.0" :=
  (months_and_utilization [bigEntry] [] [] 2026 9).2.2
    (by norm_num [monthsAnalyzed, sowStartYear, sowStartMonth0])
    (by norm_num [totalHoursQ, bigEntry, sowMonthlyHours, monthsAnalyzed,
      sowStartYear, sowStartMonth0])

/-! ## Claim C7 : the "no data" guard -/

/-- C7 (intended semantics of a script that fails to parse).  In the written
control flow, an absent logs directory loads zero entries; a corpus that is
empty after date filtering makes `main` take the distinct `noData` outcome
before `analyzeTeamData` is ever invoked, so no utilization division is
performed and no utilization value of any kind is reported for an empty
corpus; a report outcome only ever arises from a non-empty corpus.  The
shipped script exhibits none of this: it throws SyntaxError at parse time
(duplicate `const` declarations) before `main` exists, so the distinct
"no data" outcome the claim describes is never actually reported — the
claim matches the evident intent, and the code's slip defeats it
(code bug). -/
theorem no_data_guard (dirExists : Bool) (files : List (List TimeEntry))
    (startDate : String) (endDate : Option String) (nowDate : String)
    (nowYear nowMonth0 : ℕ) :
    (dirExists = false → loadTeamData dirExists files startDate endDate nowDate = []) ∧
    (∀ entries : List TimeEntry, entries = [] →
        runMain entries nowYear nowMonth0 = MainOutcome.noData) ∧
    (∀ entries : List TimeEntry, ∀ a : Analysis,
        runMain entries nowYear nowMonth0 = MainOutcome.report a →
        entries ≠ [] ∧ a = analyzeTeamData entries nowYear nowMonth0) := by
  refine ⟨?_, ?_, ?_⟩
  · intro h
    subst h
    simp [loadTeamData]
  · intro entries h
    subst h
    simp [runMain]
  · intro entries a h
    unfold runMain at h
    by_cases hlen : entries.length = 0
    · rw [if_pos hlen] at h
      cases h
    · rw [if_neg hlen] at h
      cases h
      exact ⟨fun hnil => hlen (by simp [hnil]), rfl⟩

/-- Witness for `no_data_guard`: missing directory, empty corpus, and a
one-entry report outcome. -/
theorem no_data_guard_witness :
    loadTeamData false [[bigEntry]] "2025-04-01" none "2026-10-11" = [] ∧
    runMain [] 2026 9 = MainOutcome.noData ∧
    ([bigEntry] ≠ [] ∧
      analyzeTeamData [bigEntry] 2026 9 = analyzeTeamData [bigEntry] 2026 9) :=
  ⟨(no_data_guard false [[bigEntry]] "2025-04-01" none "2026-10-11" 2026 9).1 rfl,
   (no_data_guard false [[bigEntry]] "2025-04-01" none "2026-10-11" 2026 9).2.1 [] rfl,
   (no_data_guard false [[bigEntry]] "2025-04-01" none "2026-10-11" 2026 9).2.2
     [bigEntry] (analyzeTeamData [bigEntry] 2026 9) rfl⟩

/-! ## Claim C10 : summary sections are corpus-independent -/

/-- C10 (intended semantics of a script that fails to parse).  In the
written report logic, the Key Finding and Recommendations sections of the
summary report are character-for-character identical for any two (non-empty)
corpora: their branch selection reads only `avgHoursNeededPerMonth`, a
hard-coded configuration constant, never the loaded entry data.  The shipped
script never renders either section: `generateSummaryReport` redeclares
`const monthlyNeeded` (and `analyzeTeamData` redeclares `sowStart`/`now`),
a parse-time SyntaxError, so the module never loads — the written logic has
the claimed corpus-independence, and the code's slip prevents any report at
all (code bug). -/
theorem summary_sections_corpus_independent (e1 e2 : List TimeEntry)
    (nowYear nowMonth0 : ℕ) (h1 : e1 ≠ []) (h2 : e2 ≠ []) :
    keyFindingLines (analyzeTeamData e1 nowYear nowMonth0)
      = keyFindingLines (analyzeTeamData e2 nowYear nowMonth0) ∧
    recommendationLines (analyzeTeamData e1 nowYear nowMonth0)
      = recommendationLines (analyzeTeamData e2 nowYear nowMonth0) := by
  rw [keyFindingLines_const, keyFindingLines_const, recommendationLines_const,
    recommendationLines_const]
  exact ⟨rfl, rfl⟩

/-- Witness for `summary_sections_corpus_independent` at two concrete
non-empty corpora. -/
theorem summary_sections_corpus_independent_witness :
    keyFindingLines (analyzeTeamData [bigEntry] 2026 9)
      = keyFindingLines (analyzeTeamData [eCatic, eLsmGen] 2026 9) ∧
    recommendationLines (analyzeTeamData [bigEntry] 2026 9)
      = recommendationLines (analyzeTeamData [eCatic, eLsmGen] 2026 9) :=
  summary_sections_corpus_independent [bigEntry] [eCatic, eLsmGen] 2026 9
    (by decide) (by decide)

end Noko
